import Mathlib

/-!
# Verification of `snapshotter` (`src/main.go`)

A shallow embedding of the logging interceptor of `main.go`: the record model
(`Message.MarshalJSON`), the sink (`New`, `json.Encoder.Encode` over an
`os.File`), the interceptor (`LoggingInterceptor.Intercept`, `must`) and the
process driver (`main`).

Go strings are `String`; file contents are byte lists (`List Nat`, UTF-8).
Library behaviour the program relies on (`strconv.Quote` behind `%q`, the
`encoding/json` scanner and compaction, `os.File` reads and writes) is
embedded from the Go standard library; what depends on data that is not part
of the repository (the Unicode tables of `strconv.IsPrint` above U+00FF and
the schema encoder `protojson.Marshal`) is a parameter, `Lib`.
-/

namespace Snapshotter

/-! ## Go values -/

/-- A Go `error`, represented by its message. -/
abbrev GoError := String

/-- A Go value of interface type `any`, seen through the one type switch the
program performs on it: the nil interface, a value implementing
`proto.Message`, or any other value (kept as its `%T` rendering). -/
inductive GoAny (M : Type) where
  | nil : GoAny M
  | proto (m : M) : GoAny M
  | other (typeName : String) : GoAny M
  deriving DecidableEq, Repr

/-- The library data the program is linked against. -/
structure Lib (M : Type) where
  /-- The tables of `strconv.IsPrint` for runes above U+00FF. -/
  isPrintWide : Nat → Bool
  /-- The schema encoder, `protojson.Marshal`. -/
  protojsonMarshal : M → Except GoError String

/-! ## `strconv.Quote`, the `%q` verb of `fmt.Sprintf` -/

/-- The digit table `"0123456789abcdef"` of `strconv`. -/
def lowerhex (n : Nat) : Char :=
  match n % 16 with
  | 0 => '0' | 1 => '1' | 2 => '2' | 3 => '3' | 4 => '4' | 5 => '5'
  | 6 => '6' | 7 => '7' | 8 => '8' | 9 => '9' | 10 => 'a' | 11 => 'b'
  | 12 => 'c' | 13 => 'd' | 14 => 'e' | _ => 'f'

/-- The function `strconv.IsPrint`: the Latin-1 fast path is code, the rest is
a table lookup. -/
def IsPrint (isPrintWide : Nat → Bool) (r : Char) : Bool :=
  let v := r.toNat
  if v ≤ 0xFF then
    if 0x20 ≤ v ∧ v ≤ 0x7E then true
    else if 0xA1 ≤ v ∧ v ≤ 0xFF then v != 0xAD
    else false
  else isPrintWide v

/-- The function `strconv.appendEscapedRune` with `quote = '"'`,
`ASCIIonly = false`, `graphicOnly = false`. -/
def appendEscapedRune (isPrintWide : Nat → Bool) (r : Char) : List Char :=
  if r = '"' ∨ r = '\\' then ['\\', r]
  else if IsPrint isPrintWide r then [r]
  else if r.toNat = 0x07 then ['\\', 'a']
  else if r.toNat = 0x08 then ['\\', 'b']
  else if r.toNat = 0x0C then ['\\', 'f']
  else if r = '\n' then ['\\', 'n']
  else if r = '\r' then ['\\', 'r']
  else if r = '\t' then ['\\', 't']
  else if r.toNat = 0x0B then ['\\', 'v']
  else if r.toNat < 0x20 ∨ r.toNat = 0x7F then
    ['\\', 'x', lowerhex (r.toNat / 16), lowerhex r.toNat]
  else if r.toNat < 0x10000 then
    ['\\', 'u', lowerhex (r.toNat / 4096), lowerhex (r.toNat / 256),
      lowerhex (r.toNat / 16), lowerhex r.toNat]
  else
    ['\\', 'U', lowerhex (r.toNat / 268435456), lowerhex (r.toNat / 16777216),
      lowerhex (r.toNat / 1048576), lowerhex (r.toNat / 65536),
      lowerhex (r.toNat / 4096), lowerhex (r.toNat / 256),
      lowerhex (r.toNat / 16), lowerhex r.toNat]

/-- The function `strconv.Quote`, which `%q` applies to a string operand. -/
def Quote {M : Type} (lib : Lib M) (s : String) : String :=
  String.mk (['"'] ++ (s.data.map (appendEscapedRune lib.isPrintWide)).flatten ++ ['"'])

/-! ## The record model -/

/-- The struct `Message`. -/
structure Message (M : Type) where
  kind : String
  method : String
  msg : GoAny M

/-- The method `(*Message).MarshalJSON`. The result is Go's pair
`([]byte, error)`, with `none` for `nil`; the bytes are kept as the string
they are converted from. The verb `%T` prints `<nil>` for the nil interface
and the type's name otherwise. -/
def Message.MarshalJSON {M : Type} (lib : Lib M) (m : Message M) :
    Option String × Option GoError :=
  match m.msg with
  | GoAny.proto protoMessage =>
    match lib.protojsonMarshal protoMessage with
    | Except.error err => (none, some ("marshalling proto: " ++ err))
    | Except.ok msg =>
      (some ("\x7b\"method\": " ++ Quote lib m.method ++ ", \"type\": "
        ++ Quote lib m.kind ++ ", \"message\": " ++ msg ++ "\x7d"), none)
  | GoAny.nil => (none, some "message had unexpected type <nil>")
  | GoAny.other t => (none, some ("message had unexpected type " ++ t))

/-! ## UTF-8 -/

/-- The UTF-8 encoding of one rune. -/
def utf8EncodeRune (c : Char) : List Nat :=
  let v := c.toNat
  if v < 0x80 then [v]
  else if v < 0x800 then [0xC0 + v / 64, 0x80 + v % 64]
  else if v < 0x10000 then [0xE0 + v / 4096, 0x80 + v / 64 % 64, 0x80 + v % 64]
  else [0xF0 + v / 262144, 0x80 + v / 4096 % 64, 0x80 + v / 64 % 64, 0x80 + v % 64]

/-- The conversion `[]byte(s)`. -/
def utf8 (s : String) : List Nat :=
  (s.data.map utf8EncodeRune).flatten

/-! ## The scanner of `encoding/json` (`scanner.go`) -/

/-- The values a `step` function returns. -/
abbrev scanContinue : Nat := 0
abbrev scanBeginLiteral : Nat := 1
abbrev scanBeginObject : Nat := 2
abbrev scanObjectKey : Nat := 3
abbrev scanObjectValue : Nat := 4
abbrev scanEndObject : Nat := 5
abbrev scanBeginArray : Nat := 6
abbrev scanArrayValue : Nat := 7
abbrev scanEndArray : Nat := 8
abbrev scanSkipSpace : Nat := 9
abbrev scanEnd : Nat := 10
abbrev scanError : Nat := 11

abbrev maxNestingDepth : Nat := 10000

/-- The entries of the scanner's `parseState` stack. -/
inductive ParseState where
  | parseObjectKey | parseObjectValue | parseArrayValue
  deriving DecidableEq, Repr

/-- The `step` field of the scanner: which state function runs next. -/
inductive StepFn where
  | stateBeginValueOrEmpty | stateBeginValue | stateBeginStringOrEmpty
  | stateBeginString | stateEndValue | stateEndTop
  | stateInString | stateInStringEsc | stateInStringEscU | stateInStringEscU1
  | stateInStringEscU12 | stateInStringEscU123
  | stateNeg | state1 | state0 | stateDot | stateDot0 | stateE | stateESign | stateE0
  | stateT | stateTr | stateTru | stateF | stateFa | stateFal | stateFals
  | stateN | stateNu | stateNul | stateError
  deriving DecidableEq, Repr

/-- The struct `scanner`; `parseState` keeps the top of the stack first. -/
structure scanner where
  step : StepFn
  parseState : List ParseState
  err : Option String
  endTop : Bool
  deriving DecidableEq, Repr

/-- The state after `scanner.reset`. -/
def newScanner : scanner :=
  { step := StepFn.stateBeginValue, parseState := [], err := none, endTop := false }

/-- The byte of an ASCII character. -/
abbrev byte (c : Char) : Nat := c.toNat

def isSpace (c : Nat) : Bool :=
  c ≤ byte ' ' && (c = byte ' ' || c = byte '\t' || c = byte '\r' || c = byte '\n')

def isDigit (c : Nat) : Bool := byte '0' ≤ c && c ≤ byte '9'

def isHexDigit (c : Nat) : Bool :=
  isDigit c || (byte 'a' ≤ c && c ≤ byte 'f') || (byte 'A' ≤ c && c ≤ byte 'F')

/-- The function `quoteChar` of `scanner.go`: the byte between single quotes,
written as `strconv.Quote` writes the rune of that value (a byte never
reaches the tables), the two quote characters apart. -/
def quoteChar (c : Nat) : String :=
  if c = 0x27 then String.mk [Char.ofNat 0x27, '\\', Char.ofNat 0x27, Char.ofNat 0x27]
  else if c = byte '"' then String.mk [Char.ofNat 0x27, '"', Char.ofNat 0x27]
  else String.mk ([Char.ofNat 0x27] ++ appendEscapedRune (fun _ => false) (Char.ofNat c)
    ++ [Char.ofNat 0x27])

/-- The method `scanner.error`: record the error and stop. -/
def scanner.error (s : scanner) (c : Nat) (context : String) : Nat × scanner :=
  (scanError, { s with step := StepFn.stateError,
                       err := some ("invalid character " ++ quoteChar c ++ " " ++ context) })

def scanner.pushParseState (s : scanner) (c : Nat) (newParseState : ParseState)
    (successState : Nat) : Nat × scanner :=
  let s1 := { s with parseState := newParseState :: s.parseState }
  if s1.parseState.length ≤ maxNestingDepth then (successState, s1)
  else s1.error c "exceeded max depth"

def scanner.popParseState (s : scanner) : scanner :=
  let rest := s.parseState.tail
  if rest.length = 0 then { s with parseState := rest, step := StepFn.stateEndTop, endTop := true }
  else { s with parseState := rest, step := StepFn.stateEndValue }

def stateEndTop (s : scanner) (c : Nat) : Nat × scanner :=
  if !isSpace c then (scanEnd, (s.error c "after top-level value").2)
  else (scanEnd, s)

def stateEndValue (s : scanner) (c : Nat) : Nat × scanner :=
  match s.parseState with
  | [] => stateEndTop { s with step := StepFn.stateEndTop, endTop := true } c
  | ps :: rest =>
    if isSpace c then (scanSkipSpace, { s with step := StepFn.stateEndValue })
    else match ps with
      | ParseState.parseObjectKey =>
        if c = byte ':' then
          (scanObjectKey, { s with parseState := ParseState.parseObjectValue :: rest,
                                   step := StepFn.stateBeginValue })
        else s.error c "after object key"
      | ParseState.parseObjectValue =>
        if c = byte ',' then
          (scanObjectValue, { s with parseState := ParseState.parseObjectKey :: rest,
                                     step := StepFn.stateBeginString })
        else if c = byte '\x7d' then (scanEndObject, s.popParseState)
        else s.error c "after object key:value pair"
      | ParseState.parseArrayValue =>
        if c = byte ',' then (scanArrayValue, { s with step := StepFn.stateBeginValue })
        else if c = byte ']' then (scanEndArray, s.popParseState)
        else s.error c "after array element"

def stateBeginValue (s : scanner) (c : Nat) : Nat × scanner :=
  if isSpace c then (scanSkipSpace, s)
  else if c = byte '\x7b' then
    scanner.pushParseState { s with step := StepFn.stateBeginStringOrEmpty } c
      ParseState.parseObjectKey scanBeginObject
  else if c = byte '[' then
    scanner.pushParseState { s with step := StepFn.stateBeginValueOrEmpty } c
      ParseState.parseArrayValue scanBeginArray
  else if c = byte '"' then (scanBeginLiteral, { s with step := StepFn.stateInString })
  else if c = byte '-' then (scanBeginLiteral, { s with step := StepFn.stateNeg })
  else if c = byte '0' then (scanBeginLiteral, { s with step := StepFn.state0 })
  else if c = byte 't' then (scanBeginLiteral, { s with step := StepFn.stateT })
  else if c = byte 'f' then (scanBeginLiteral, { s with step := StepFn.stateF })
  else if c = byte 'n' then (scanBeginLiteral, { s with step := StepFn.stateN })
  else if byte '1' ≤ c ∧ c ≤ byte '9' then (scanBeginLiteral, { s with step := StepFn.state1 })
  else s.error c "looking for beginning of value"

def stateBeginValueOrEmpty (s : scanner) (c : Nat) : Nat × scanner :=
  if isSpace c then (scanSkipSpace, s)
  else if c = byte ']' then stateEndValue s c
  else stateBeginValue s c

def stateBeginString (s : scanner) (c : Nat) : Nat × scanner :=
  if isSpace c then (scanSkipSpace, s)
  else if c = byte '"' then (scanBeginLiteral, { s with step := StepFn.stateInString })
  else s.error c "looking for beginning of object key string"

def stateBeginStringOrEmpty (s : scanner) (c : Nat) : Nat × scanner :=
  if isSpace c then (scanSkipSpace, s)
  else if c = byte '\x7d' then
    stateEndValue { s with parseState := ParseState.parseObjectValue :: s.parseState.tail } c
  else stateBeginString s c

def stateInString (s : scanner) (c : Nat) : Nat × scanner :=
  if c = byte '"' then (scanContinue, { s with step := StepFn.stateEndValue })
  else if c = byte '\\' then (scanContinue, { s with step := StepFn.stateInStringEsc })
  else if c < 0x20 then s.error c "in string literal"
  else (scanContinue, s)

def stateInStringEsc (s : scanner) (c : Nat) : Nat × scanner :=
  if c = byte 'b' ∨ c = byte 'f' ∨ c = byte 'n' ∨ c = byte 'r' ∨ c = byte 't'
      ∨ c = byte '\\' ∨ c = byte '/' ∨ c = byte '"' then
    (scanContinue, { s with step := StepFn.stateInString })
  else if c = byte 'u' then (scanContinue, { s with step := StepFn.stateInStringEscU })
  else s.error c "in string escape code"

/-- The four states `stateInStringEscU`, `...U1`, `...U12`, `...U123`: one
hexadecimal digit each, then on to `next`. -/
def stateInStringEscHex (next : StepFn) (s : scanner) (c : Nat) : Nat × scanner :=
  if isHexDigit c then (scanContinue, { s with step := next })
  else s.error c "in \\u hexadecimal character escape"

def state0 (s : scanner) (c : Nat) : Nat × scanner :=
  if c = byte '.' then (scanContinue, { s with step := StepFn.stateDot })
  else if c = byte 'e' ∨ c = byte 'E' then (scanContinue, { s with step := StepFn.stateE })
  else stateEndValue s c

def state1 (s : scanner) (c : Nat) : Nat × scanner :=
  if isDigit c then (scanContinue, { s with step := StepFn.state1 })
  else state0 s c

def stateNeg (s : scanner) (c : Nat) : Nat × scanner :=
  if c = byte '0' then (scanContinue, { s with step := StepFn.state0 })
  else if byte '1' ≤ c ∧ c ≤ byte '9' then (scanContinue, { s with step := StepFn.state1 })
  else s.error c "in numeric literal"

def stateDot (s : scanner) (c : Nat) : Nat × scanner :=
  if isDigit c then (scanContinue, { s with step := StepFn.stateDot0 })
  else s.error c "after decimal point in numeric literal"

def stateDot0 (s : scanner) (c : Nat) : Nat × scanner :=
  if isDigit c then (scanContinue, s)
  else if c = byte 'e' ∨ c = byte 'E' then (scanContinue, { s with step := StepFn.stateE })
  else stateEndValue s c

def stateESign (s : scanner) (c : Nat) : Nat × scanner :=
  if isDigit c then (scanContinue, { s with step := StepFn.stateE0 })
  else s.error c "in exponent of numeric literal"

def stateE (s : scanner) (c : Nat) : Nat × scanner :=
  if c = byte '+' ∨ c = byte '-' then (scanContinue, { s with step := StepFn.stateESign })
  else stateESign s c

def stateE0 (s : scanner) (c : Nat) : Nat × scanner :=
  if isDigit c then (scanContinue, s)
  else stateEndValue s c

/-- The states inside the literals `true`, `false` and `null`: the byte
`want` moves on to `next`. -/
def stateLiteral (want : Char) (next : StepFn) (context : String) (s : scanner) (c : Nat) :
    Nat × scanner :=
  if c = byte want then (scanContinue, { s with step := next })
  else s.error c context

/-- The call `s.step(s, c)`. -/
def scanner.doStep (s : scanner) (c : Nat) : Nat × scanner :=
  match s.step with
  | StepFn.stateBeginValueOrEmpty => stateBeginValueOrEmpty s c
  | StepFn.stateBeginValue => stateBeginValue s c
  | StepFn.stateBeginStringOrEmpty => stateBeginStringOrEmpty s c
  | StepFn.stateBeginString => stateBeginString s c
  | StepFn.stateEndValue => stateEndValue s c
  | StepFn.stateEndTop => stateEndTop s c
  | StepFn.stateInString => stateInString s c
  | StepFn.stateInStringEsc => stateInStringEsc s c
  | StepFn.stateInStringEscU => stateInStringEscHex StepFn.stateInStringEscU1 s c
  | StepFn.stateInStringEscU1 => stateInStringEscHex StepFn.stateInStringEscU12 s c
  | StepFn.stateInStringEscU12 => stateInStringEscHex StepFn.stateInStringEscU123 s c
  | StepFn.stateInStringEscU123 => stateInStringEscHex StepFn.stateInString s c
  | StepFn.stateNeg => stateNeg s c
  | StepFn.state1 => state1 s c
  | StepFn.state0 => state0 s c
  | StepFn.stateDot => stateDot s c
  | StepFn.stateDot0 => stateDot0 s c
  | StepFn.stateE => stateE s c
  | StepFn.stateESign => stateESign s c
  | StepFn.stateE0 => stateE0 s c
  | StepFn.stateT => stateLiteral 'r' StepFn.stateTr "in literal true (expecting 'r')" s c
  | StepFn.stateTr => stateLiteral 'u' StepFn.stateTru "in literal true (expecting 'u')" s c
  | StepFn.stateTru => stateLiteral 'e' StepFn.stateEndValue "in literal true (expecting 'e')" s c
  | StepFn.stateF => stateLiteral 'a' StepFn.stateFa "in literal false (expecting 'a')" s c
  | StepFn.stateFa => stateLiteral 'l' StepFn.stateFal "in literal false (expecting 'l')" s c
  | StepFn.stateFal => stateLiteral 's' StepFn.stateFals "in literal false (expecting 's')" s c
  | StepFn.stateFals => stateLiteral 'e' StepFn.stateEndValue "in literal false (expecting 'e')" s c
  | StepFn.stateN => stateLiteral 'u' StepFn.stateNu "in literal null (expecting 'u')" s c
  | StepFn.stateNu => stateLiteral 'l' StepFn.stateNul "in literal null (expecting 'l')" s c
  | StepFn.stateNul => stateLiteral 'l' StepFn.stateEndValue "in literal null (expecting 'l')" s c
  | StepFn.stateError => (scanError, s)

/-- The method `scanner.eof`. -/
def scanner.eof (s : scanner) : Nat × scanner :=
  if s.err.isSome then (scanError, s)
  else if s.endTop then (scanEnd, s)
  else
    let s1 := (s.doStep (byte ' ')).2
    if s1.endTop then (scanEnd, s1)
    else if s1.err.isNone then (scanError, { s1 with err := some "unexpected end of JSON input" })
    else (scanError, s1)

/-- The function `checkValid` behind `json.Valid`: run the scanner over the
bytes, stop at the first error, then ask for the end of input. -/
def checkValid : List Nat → scanner → Option String
  | [], scan => if scan.eof.1 = scanError then scan.eof.2.err else none
  | c :: rest, scan =>
    if (scan.doStep c).1 = scanError then (scan.doStep c).2.err
    else checkValid rest (scan.doStep c).2

/-- The function `json.Valid`. -/
def Valid (data : List Nat) : Bool := (checkValid data newScanner).isNone

/-! ## Compaction (`indent.go`) and `json.Encoder` (`stream.go`) -/

/-- The slice expression `src[start:i]`. -/
def slice (src : List Nat) (start i : Nat) : List Nat := (src.drop start).take (i - start)

/-- The statement `if start < i { dst = append(dst, src[start:i]...) }`. -/
def flush (dst src : List Nat) (start i : Nat) : List Nat :=
  if start < i then dst ++ slice src start i else dst

/-- The loop of `appendCompact`, from index `i` on, `rest` being `src[i:]`:
the result is `dst`, `start` and the scanner when the loop is left. -/
def compactLoop (src : List Nat) (escape : Bool) :
    List Nat → Nat → List Nat → Nat → scanner → List Nat × Nat × scanner
  | [], _, dst, start, scan => (dst, start, scan)
  | c :: rest, i, dst, start, scan =>
    let html := escape && (c = byte '<' || c = byte '>' || c = byte '&')
    let dst1 := if html then
        flush dst src start i ++ [byte '\\', byte 'u', byte '0', byte '0',
          byte (lowerhex (c / 16)), byte (lowerhex c)]
      else dst
    let start1 := if html then i + 1 else start
    let sep := escape && c = 0xE2 && decide (i + 2 < src.length)
      && src.getD (i + 1) 0 = 0x80 && src.getD (i + 2) 0 / 2 * 2 = 0xA8
    let dst2 := if sep then
        flush dst1 src start1 i ++ [byte '\\', byte 'u', byte '2', byte '0', byte '2',
          byte (lowerhex (src.getD (i + 2) 0))]
      else dst1
    let start2 := if sep then i + 3 else start1
    let v := (scan.doStep c).1
    let scan1 := (scan.doStep c).2
    if v ≥ scanSkipSpace then
      if v = scanError then (dst2, start2, scan1)
      else compactLoop src escape rest (i + 1) (flush dst2 src start2 i) (i + 1) scan1
    else compactLoop src escape rest (i + 1) dst2 start2 scan1

/-- The function `appendCompact` on an empty `dst`: the compacted bytes, or
the scanner's error. -/
def appendCompact (src : List Nat) (escape : Bool) : Except String (List Nat) :=
  match compactLoop src escape src 0 [] 0 newScanner with
  | (dst, start, scan) =>
    if scan.eof.1 = scanError then Except.error (scan.eof.2.err.getD "")
    else Except.ok (if start < src.length then dst ++ slice src start src.length else dst)

/-- What `encodeState.marshal` does with a `*Message`: the type implements
`json.Marshaler`, so `marshalerEncoder` calls `MarshalJSON` and compacts what
it returns; either error comes back wrapped in a `MarshalerError`. -/
def marshal {M : Type} (lib : Lib M) (v : Message M) (escapeHTML : Bool) :
    Except GoError (List Nat) :=
  match v.MarshalJSON lib with
  | (_, some err) =>
    Except.error ("json: error calling MarshalJSON for type *main.Message: " ++ err)
  | (b, none) =>
    match appendCompact (utf8 (b.getD "")) escapeHTML with
    | Except.error err =>
      Except.error ("json: error calling MarshalJSON for type *main.Message: " ++ err)
    | Except.ok out => Except.ok out

/-! ## Files (`os.File`) -/

abbrev O_RDONLY : Nat := 0x0
abbrev O_WRONLY : Nat := 0x1
abbrev O_RDWR : Nat := 0x2
abbrev O_CREATE : Nat := 0x40
abbrev O_EXCL : Nat := 0x80
abbrev O_TRUNC : Nat := 0x200
abbrev O_APPEND : Nat := 0x400

/-- What a path names. -/
inductive Node where
  | absent : Node
  | regular (data : List Nat) : Node
  | socket : Node
  | unopenable (err : GoError) : Node
  deriving DecidableEq, Repr

/-- An externally visible action of the process, in program order. -/
inductive Event where
  | log (line : String) : Event
  | open (name : String) : Event
  | write (name : String) (accepted : List Nat) : Event
  | close (name : String) : Event
  | newServer : Event
  | newSnapshotter (root : String) : Event
  | register : Event
  | listen (addr : String) : Event
  | notify : Event
  | serve : Event
  | interrupt : Event
  | stop : Event
  | remove (name : String) : Event
  | exit (code : Nat) : Event
  deriving DecidableEq, Repr

/-- The world the process runs in: the filesystem, the largest size a file
may grow to (if any), the actions performed so far, and the state of
everything else (`ext`), which is the handler's to read and change. -/
structure World (σ : Type) where
  fs : String → Node
  fileSizeLimit : Option Nat
  trace : List Event
  ext : σ

/-- The filesystem with `name` now naming `node`. -/
def setNode (fs : String → Node) (name : String) (node : Node) : String → Node :=
  fun p => if p = name then node else fs p

/-- An `*os.File`: the path it was opened on, its offset, whether it was
opened with `O_APPEND`, whether it may be written, whether it was closed. -/
structure File where
  name : String
  offset : Nat
  appendMode : Bool
  writable : Bool
  closed : Bool
  deriving DecidableEq, Repr

/-- The bytes of a file after `b` is written at offset `pos`: bytes before
`pos` stay (a gap past the end reads as zeros), `b` replaces what was at
`pos`, and what lay beyond the written range stays. -/
def writeAt (data : List Nat) (pos : Nat) (b : List Nat) : List Nat :=
  data.take pos ++ List.replicate (pos - data.length) 0 ++ b ++ data.drop (pos + b.length)

/-- The function `os.OpenFile` (the permission bits only matter to other
processes). The file is positioned at offset 0; nothing but `O_TRUNC` changes
what it holds. -/
def OpenFile {σ : Type} (name : String) (flag : Nat) (w : World σ) :
    Except GoError File × World σ :=
  let w1 := { w with trace := w.trace ++ [Event.open name] }
  let f : File := { name := name, offset := 0, appendMode := flag &&& O_APPEND ≠ 0,
                    writable := flag &&& 3 ≠ O_RDONLY, closed := false }
  match w.fs name with
  | Node.unopenable err => (Except.error ("open " ++ name ++ ": " ++ err), w1)
  | Node.socket => (Except.error ("open " ++ name ++ ": no such device or address"), w1)
  | Node.absent =>
    if flag &&& O_CREATE ≠ 0 then
      (Except.ok f, { w1 with fs := setNode w.fs name (Node.regular []) })
    else (Except.error ("open " ++ name ++ ": no such file or directory"), w1)
  | Node.regular _ =>
    if flag &&& O_CREATE ≠ 0 ∧ flag &&& O_EXCL ≠ 0 then
      (Except.error ("open " ++ name ++ ": file exists"), w1)
    else if flag &&& O_TRUNC ≠ 0 ∧ flag &&& 3 ≠ O_RDONLY then
      (Except.ok f, { w1 with fs := setNode w.fs name (Node.regular []) })
    else (Except.ok f, w1)

/-- The method `(*os.File).Write`: the bytes go to the file's offset (to the
end of the file under `O_APPEND`) and the offset moves past them. When the
file may not grow that far, the bytes that fit are written and the call fails. -/
def File.Write {σ : Type} (f : File) (b : List Nat) (w : World σ) :
    (Nat × Option GoError) × File × World σ :=
  if f.closed then ((0, some ("write " ++ f.name ++ ": file already closed")), f, w)
  else if !f.writable then ((0, some ("write " ++ f.name ++ ": bad file descriptor")), f, w)
  else match w.fs f.name with
    | Node.regular data =>
      let pos := if f.appendMode then data.length else f.offset
      let n := match w.fileSizeLimit with
        | none => b.length
        | some limit => min b.length (limit - pos)
      let w1 := { w with fs := setNode w.fs f.name (Node.regular (writeAt data pos (b.take n))),
                         trace := w.trace ++ [Event.write f.name (b.take n)] }
      ((n, if n < b.length then some ("write " ++ f.name ++ ": file too large") else none),
        { f with offset := pos + n }, w1)
    | _ => ((0, some ("write " ++ f.name ++ ": bad file descriptor")), f, w)

/-- The method `(*os.File).Close`. -/
def File.Close {σ : Type} (f : File) (w : World σ) : Option GoError × File × World σ :=
  if f.closed then (some ("close " ++ f.name ++ ": file already closed"), f, w)
  else (none, { f with closed := true }, { w with trace := w.trace ++ [Event.close f.name] })

/-- The struct `json.Encoder`; its writer is the file next to it in
`LoggingInterceptor`. -/
structure Encoder where
  err : Option GoError
  escapeHTML : Bool
  deriving DecidableEq, Repr

/-- The function `json.NewEncoder`. -/
def NewEncoder : Encoder := { err := none, escapeHTML := true }

/-- The method `(*json.Encoder).Encode` for a `*Message`, writing to `f`: a
value that fails to marshal writes nothing; otherwise the compacted value and
a newline go out in one `Write`. A failed `Write` is remembered in `err`. -/
def Encoder.Encode {M σ : Type} (lib : Lib M) (enc : Encoder) (f : File) (v : Message M)
    (w : World σ) : Option GoError × Encoder × File × World σ :=
  match enc.err with
  | some err => (some err, enc, f, w)
  | none =>
    match marshal lib v enc.escapeHTML with
    | Except.error err => (some err, enc, f, w)
    | Except.ok e =>
      match f.Write (e ++ [byte '\n']) w with
      | ((_, some err), f1, w1) => (some err, { enc with err := some err }, f1, w1)
      | ((_, none), f1, w1) => (none, enc, f1, w1)

/-! ## The program (`main.go`) -/

/-- How a call into the program ends: it returns, or the process exits. -/
inductive Outcome (α : Type) where
  | returned (a : α) : Outcome α
  | exited (code : Nat) : Outcome α
  deriving DecidableEq, Repr

/-- The command-line flags `addr`, `root` and `intercepts`. -/
structure Flags where
  addr : String
  root : String
  intercepts : String
  deriving DecidableEq, Repr

/-- The flags' default values. -/
def defaultFlags : Flags :=
  { addr := "/tmp/snapshotter.sock", root := "/tmp/snapshots",
    intercepts := "/tmp/snapshotter-intercepts.json" }

/-- The function `must`: `log.Fatal` prints the error and exits with status 1. -/
def must {σ : Type} (err : Option GoError) (w : World σ) : Outcome Unit × World σ :=
  match err with
  | some e => (Outcome.exited 1, { w with trace := w.trace ++ [Event.log e, Event.exit 1] })
  | none => (Outcome.returned (), w)

/-- The struct `LoggingInterceptor`. -/
structure LoggingInterceptor where
  f : File
  encoder : Encoder
  deriving DecidableEq, Repr

/-- The function `New`. -/
def New {M σ : Type} (lib : Lib M) (flags : Flags) (w : World σ) :
    Except GoError LoggingInterceptor × World σ :=
  match OpenFile flags.intercepts (O_RDWR ||| O_CREATE) w with
  | (Except.error err, w1) =>
    (Except.error ("opening file " ++ Quote lib flags.intercepts ++ ": " ++ err), w1)
  | (Except.ok f, w1) => (Except.ok { f := f, encoder := NewEncoder }, w1)

/-- The struct `grpc.UnaryServerInfo`, as far as the program reads it. -/
structure UnaryServerInfo where
  FullMethod : String
  deriving DecidableEq, Repr

/-- The type `grpc.UnaryHandler`: the handler sees the world as it is when it
is invoked and leaves it as it likes. -/
abbrev UnaryHandler (C M σ : Type) :=
  C → GoAny M → World σ → (GoAny M × Option GoError) × World σ

/-- The method `(*LoggingInterceptor).Intercept`. -/
def LoggingInterceptor.Intercept {C M σ : Type} (lib : Lib M) (li : LoggingInterceptor)
    (ctx : C) (req : GoAny M) (info : UnaryServerInfo) (handler : UnaryHandler C M σ)
    (w : World σ) : Outcome (GoAny M × Option GoError) × LoggingInterceptor × World σ :=
  let w0 := { w with trace := w.trace ++ [Event.log "intercepting"] }
  let reqMsg : Message M := { kind := "request", method := info.FullMethod, msg := req }
  match li.encoder.Encode lib li.f reqMsg w0 with
  | (e1, enc1, f1, w1) =>
    match must e1 w1 with
    | (Outcome.exited code, w2) => (Outcome.exited code, { f := f1, encoder := enc1 }, w2)
    | (Outcome.returned _, w2) =>
      match handler ctx req w2 with
      | ((resp, err), w3) =>
        let respMsg : Message M :=
          { kind := "response", method := info.FullMethod, msg := resp }
        match enc1.Encode lib f1 respMsg w3 with
        | (e2, enc2, f2, w4) =>
          match must e2 w4 with
          | (Outcome.exited code, w5) =>
            (Outcome.exited code, { f := f2, encoder := enc2 }, w5)
          | (Outcome.returned _, w5) =>
            (Outcome.returned (resp, err), { f := f2, encoder := enc2 }, w5)

/-- The method `(*LoggingInterceptor).Close`. -/
def LoggingInterceptor.Close {σ : Type} (li : LoggingInterceptor) (w : World σ) :
    LoggingInterceptor × World σ :=
  match li.f.Close w with
  | (_, f1, w1) => ({ li with f := f1 }, w1)

/-- One call the server dispatches to the interceptor. -/
structure Call (C M σ : Type) where
  ctx : C
  req : GoAny M
  info : UnaryServerInfo
  handler : UnaryHandler C M σ

/-- What the outside does during a run of `main`: whether
`native.NewSnapshotter` and `net.Listen` fail, and the calls that arrive
before the interrupt. -/
structure Env (C M σ : Type) where
  snapshotterErr : Option GoError
  listenErr : Option GoError
  calls : List (Call C M σ)

/-- The server started by `go rpc.Serve(l)`, on the schedule that serves the
calls one after the other: each goes through `interceptor.Intercept`, and a
call that exits the process ends the run. -/
def serveCalls {C M σ : Type} (lib : Lib M) :
    List (Call C M σ) → LoggingInterceptor → World σ → Outcome Unit × LoggingInterceptor × World σ
  | [], li, w => (Outcome.returned (), li, w)
  | c :: rest, li, w =>
    match li.Intercept lib c.ctx c.req c.info c.handler w with
    | (Outcome.exited code, li1, w1) => (Outcome.exited code, li1, w1)
    | (Outcome.returned _, li1, w1) => serveCalls lib rest li1 w1

/-- The function `main`, run until the process exits: the exit status, the
sink as it is then (if it was opened), and the world. The interrupt arrives
after the calls of `env` have been served. -/
def main {C M σ : Type} (lib : Lib M) (flags : Flags) (env : Env C M σ) (w : World σ) :
    Nat × Option LoggingInterceptor × World σ :=
  match New lib flags w with
  | (Except.error err, w1) => (1, none, (must (some err) w1).2)
  | (Except.ok interceptor, w1) =>
    let w2 := { w1 with trace := w1.trace ++ [Event.newServer, Event.newSnapshotter flags.root] }
    match must env.snapshotterErr w2 with
    | (Outcome.exited code, w3) => (code, some interceptor, w3)
    | (Outcome.returned _, w3) =>
      let w4 := { w3 with trace := w3.trace ++ [Event.register, Event.listen flags.addr] }
      match must env.listenErr w4 with
      | (Outcome.exited code, w5) => (code, some interceptor, w5)
      | (Outcome.returned _, w5) =>
        let w6 := { w5 with fs := setNode w5.fs flags.addr Node.socket,
                            trace := w5.trace ++ [Event.notify, Event.serve] }
        match serveCalls lib env.calls interceptor w6 with
        | (Outcome.exited code, li1, w7) => (code, some li1, w7)
        | (Outcome.returned _, li1, w7) =>
          (0, some li1,
            { w7 with fs := setNode w7.fs flags.addr Node.absent,
                      trace := w7.trace ++ [Event.interrupt, Event.stop,
                        Event.remove flags.addr, Event.exit 0] })

/-! ## Sample data -/

/-- Sample schema messages: a `Stat` request with key `abc`, a `Stat` response
of size 42, and a message the schema encoder rejects. -/
inductive Sample where
  | statRequest : Sample
  | statResponse : Sample
  | broken : Sample
  deriving DecidableEq, Repr

/-- A library whose schema encoder renders the sample messages; `spaced`
selects the output variant of `protojson` that puts a blank after a colon. -/
def sampleLib (spaced : Bool) : Lib Sample :=
  { isPrintWide := fun _ => false
    protojsonMarshal := fun m =>
      match m with
      | Sample.statRequest =>
        Except.ok (if spaced then "\x7b\"key\": \"abc\"\x7d" else "\x7b\"key\":\"abc\"\x7d")
      | Sample.statResponse =>
        Except.ok (if spaced then "\x7b\"size\": 42\x7d" else "\x7b\"size\":42\x7d")
      | Sample.broken => Except.error "proto: invalid UTF-8" }

/-- A world whose only file is the log, holding `data`. -/
def sampleWorld (data : Option (List Nat)) (limit : Option Nat) : World Nat :=
  { fs := fun p =>
      if p = defaultFlags.intercepts then
        (match data with
         | some d => Node.regular d
         | none => Node.absent)
      else Node.absent
    fileSizeLimit := limit
    trace := []
    ext := 0 }

/-- A handler that counts its invocations in `ext` and returns `result`. -/
def sampleHandler (result : GoAny Sample × Option GoError) : UnaryHandler Unit Sample Nat :=
  fun _ _ w => (result, { w with ext := w.ext + 1 })

/-- The content of the log file. -/
def logData {σ : Type} (flags : Flags) (w : World σ) : List Nat :=
  match w.fs flags.intercepts with
  | Node.regular data => data
  | _ => []

/-! ## The phases of one intercepted call

Names for the three steps of `Intercept`, used to state what it does. -/

/-- The record `Intercept` builds from the request. -/
def requestMsg {M : Type} (info : UnaryServerInfo) (req : GoAny M) : Message M :=
  { kind := "request", method := info.FullMethod, msg := req }

/-- The record `Intercept` builds from the handler's result. -/
def responseMsg {M : Type} (info : UnaryServerInfo) (resp : GoAny M) : Message M :=
  { kind := "response", method := info.FullMethod, msg := resp }

/-- The write of the REQUEST record: what `Encode` returns, and the encoder,
file and world it leaves. -/
def requestWrite {M σ : Type} (lib : Lib M) (li : LoggingInterceptor) (req : GoAny M)
    (info : UnaryServerInfo) (w : World σ) : Option GoError × Encoder × File × World σ :=
  li.encoder.Encode lib li.f (requestMsg info req)
    { w with trace := w.trace ++ [Event.log "intercepting"] }

/-- The invocation of the handler, in the world the REQUEST write left. -/
def handlerCall {C M σ : Type} (lib : Lib M) (li : LoggingInterceptor) (ctx : C)
    (req : GoAny M) (info : UnaryServerInfo) (handler : UnaryHandler C M σ) (w : World σ) :
    (GoAny M × Option GoError) × World σ :=
  handler ctx req (requestWrite lib li req info w).2.2.2

/-- The write of the RESPONSE record, in the world the handler left. -/
def responseWrite {C M σ : Type} (lib : Lib M) (li : LoggingInterceptor) (ctx : C)
    (req : GoAny M) (info : UnaryServerInfo) (handler : UnaryHandler C M σ) (w : World σ) :
    Option GoError × Encoder × File × World σ :=
  (requestWrite lib li req info w).2.1.Encode lib (requestWrite lib li req info w).2.2.1
    (responseMsg info (handlerCall lib li ctx req info handler w).1.1)
    (handlerCall lib li ctx req info handler w).2

/-- A character `%q` copies as it is: printable ASCII other than the quote and
the backslash. -/
def plainChar (c : Char) : Bool :=
  decide (0x20 ≤ c.toNat) && decide (c.toNat ≤ 0x7E) && c != '"' && c != '\\'

/-- The sink `New` returns for the default flags. -/
def sampleSink : LoggingInterceptor :=
  { f := { name := defaultFlags.intercepts, offset := 0, appendMode := false,
           writable := true, closed := false },
    encoder := NewEncoder }

/-- The method descriptor of the sample call. -/
def statInfo : UnaryServerInfo := { FullMethod := "Stat" }

/-- The request `Stat(key="abc")`. -/
def statReq : GoAny Sample := GoAny.proto Sample.statRequest

/-- The result `{size: 42}`. -/
def statResp : GoAny Sample := GoAny.proto Sample.statResponse

/-- The log lines of the sample call, as text. -/
def statRequestLine : String :=
  "\x7b\"method\":\"Stat\",\"type\":\"request\",\"message\":\x7b\"key\":\"abc\"\x7d\x7d\n"

def statResponseLine : String :=
  "\x7b\"method\":\"Stat\",\"type\":\"response\",\"message\":\x7b\"size\":42\x7d\x7d\n"

/-- A log left by an earlier run: three lines, 173 bytes. -/
def oldLog : String :=
  "\x7b\"method\":\"Remove\",\"type\":\"request\",\"message\":\x7b\"key\":\"abc\"\x7d\x7d\n"
    ++ "\x7b\"method\":\"Remove\",\"type\":\"response\",\"message\":\x7b\x7d\x7d\n"
    ++ "\x7b\"method\":\"Remove\",\"type\":\"request\",\"message\":\x7b\"key\":\"xyz\"\x7d\x7d\n"

/-- A method name holding the control character U+0007 (bell). -/
def bellInfo : UnaryServerInfo := { FullMethod := "\x07" }

/-- The call `Stat(key="abc")` with a handler returning `{size: 42}`. -/
def statCall : Call Unit Sample Nat :=
  { ctx := (), req := statReq, info := statInfo, handler := sampleHandler (statResp, none) }

/-- A run in which nothing fails and one `Stat` call arrives before the
interrupt. -/
def quietEnv : Env Unit Sample Nat :=
  { snapshotterErr := none, listenErr := none, calls := [statCall] }

/-- A run in which `net.Listen` fails. -/
def busyEnv : Env Unit Sample Nat :=
  { snapshotterErr := none, listenErr := some "listen unix /tmp/snapshotter.sock: bind: address already in use",
    calls := [] }

/-- The text `MarshalJSON` returns for the response record of a call whose
method name is U+0007. -/
def bellResponseText : String :=
  "\x7b\"method\": \"\\a\", \"type\": \"response\", \"message\": \x7b\"size\":42\x7d\x7d"

/-- The world in which a process starts on the log of an earlier run. -/
def restartWorld : World Nat := sampleWorld (some (utf8 oldLog)) none

/-- The offset at which a `Write` on `f` puts its bytes when the file holds
`data`. -/
def writePos (f : File) (data : List Nat) : Nat :=
  if f.appendMode then data.length else f.offset

/-- The line `Encode` sends to the sink for a record: its compacted JSON text
and a newline. -/
def recordLine (text : List Nat) : List Nat := text ++ [byte '\n']

/-! ## Theorems -/

set_option maxRecDepth 1000000


/-- On a string of plain characters `%q` only adds the surrounding quotes. -/
theorem Quote_plain {M : Type} (lib : Lib M) (s : String)
    (h : ∀ c ∈ s.data, plainChar c = true) : Quote lib s = "\"" ++ s ++ "\"" := by
  have key : ∀ l : List Char, (∀ c ∈ l, plainChar c = true) →
      (l.map (appendEscapedRune lib.isPrintWide)).flatten = l := by
    intro l
    induction l with
    | nil => intro _; rfl
    | cons c t ih =>
      intro hl
      have hc := hl c (List.mem_cons_self c t)
      have ht := ih (fun x hx => hl x (List.mem_cons_of_mem c hx))
      simp only [plainChar, Bool.and_eq_true, decide_eq_true_eq, bne_iff_ne, ne_eq] at hc
      obtain ⟨⟨⟨h1, h2⟩, h3⟩, h4⟩ := hc
      have hp : IsPrint lib.isPrintWide c = true := by
        unfold IsPrint
        have : c.toNat ≤ 0xFF := by omega
        simp [this, h1, h2]
      have he : appendEscapedRune lib.isPrintWide c = [c] := by
        unfold appendEscapedRune
        simp [h3, h4, hp]
      simp [List.map_cons, List.flatten_cons, he, ht]
  unfold Quote
  rw [key s.data h]
  rfl

/-- The text `MarshalJSON` returns for a record whose payload the schema
encoder renders as `J`: the format string with `%q` of the method, `%q` of
the kind and `J`; on a method name and a kind of plain characters, `%q` is
the name between double quotes. -/
theorem MarshalJSON_text {M : Type} (lib : Lib M) (m : Message M) (p : M) (J : String)
    (hmsg : m.msg = GoAny.proto p) (henc : lib.protojsonMarshal p = Except.ok J) :
    m.MarshalJSON lib
        = (some ("\x7b\"method\": " ++ Quote lib m.method ++ ", \"type\": "
            ++ Quote lib m.kind ++ ", \"message\": " ++ J ++ "\x7d"), none)
      ∧ ((∀ c ∈ m.method.data, plainChar c = true) → (∀ c ∈ m.kind.data, plainChar c = true) →
          m.MarshalJSON lib
            = (some ("\x7b\"method\": \"" ++ m.method ++ "\", \"type\": \""
                ++ m.kind ++ "\", \"message\": " ++ J ++ "\x7d"), none)) := by
  have h1 : m.MarshalJSON lib
      = (some ("\x7b\"method\": " ++ Quote lib m.method ++ ", \"type\": "
          ++ Quote lib m.kind ++ ", \"message\": " ++ J ++ "\x7d"), none) := by
    unfold Message.MarshalJSON
    rw [hmsg]
    simp only [henc]
  refine ⟨h1, fun hm hk => ?_⟩
  rw [h1, Quote_plain lib m.method hm, Quote_plain lib m.kind hk]
  refine Prod.ext (congrArg some (String.ext ?_)) rfl
  simp only [String.data_append, List.append_assoc]
  rfl

/-- The text of the request record of `Stat(key="abc")`. -/
theorem MarshalJSON_text_witness :
    (sampleLib false).protojsonMarshal Sample.statRequest = Except.ok "\x7b\"key\":\"abc\"\x7d"
      ∧ (requestMsg ⟨"Stat"⟩ (GoAny.proto Sample.statRequest)).MarshalJSON (sampleLib false)
        = (some "\x7b\"method\": \"Stat\", \"type\": \"request\", \"message\": \x7b\"key\":\"abc\"\x7d\x7d",
            none) :=
  ⟨rfl, by
    have h := (MarshalJSON_text (sampleLib false)
      (requestMsg ⟨"Stat"⟩ (GoAny.proto Sample.statRequest)) Sample.statRequest
      "\x7b\"key\":\"abc\"\x7d" rfl rfl).2 (by decide) (by decide)
    rw [h]
    decide⟩

/-- C6: `MarshalJSON` returns an error exactly when the payload is not a
`proto.Message` (the nil interface included) or the schema encoder fails on
it; when it returns an error it returns no bytes, and when it returns none it
returns bytes. -/
theorem MarshalJSON_error_iff {M : Type} (lib : Lib M) (m : Message M) :
    ((m.MarshalJSON lib).2 ≠ none ↔
        ((∀ p, m.msg ≠ GoAny.proto p)
          ∨ ∃ p e, m.msg = GoAny.proto p ∧ lib.protojsonMarshal p = Except.error e))
      ∧ ((m.MarshalJSON lib).2 ≠ none → (m.MarshalJSON lib).1 = none)
      ∧ ((m.MarshalJSON lib).2 = none → (m.MarshalJSON lib).1 ≠ none) := by
  unfold Message.MarshalJSON
  cases hm : m.msg with
  | nil => simp
  | other t => simp
  | proto p =>
    cases hp : lib.protojsonMarshal p with
    | error e => simp [hp]
    | ok J => simp [hp]

/-- The method `File.Write` leaves the rest of the world as it is. -/
theorem Write_ext {σ : Type} (f : File) (b : List Nat) (w : World σ) :
    (f.Write b w).2.2.ext = w.ext := by
  unfold File.Write
  split
  · rfl
  · split
    · rfl
    · split <;> rfl

/-- A `Write` that reports no error has put all of `b` at the write position. -/
theorem Write_ok {σ : Type} (f : File) (b : List Nat) (w : World σ)
    (h : (f.Write b w).1.2 = none) :
    ∃ data, w.fs f.name = Node.regular data
      ∧ (f.Write b w).2.2.fs
          = setNode w.fs f.name (Node.regular (writeAt data (writePos f data) b))
      ∧ (f.Write b w).2.2.trace = w.trace ++ [Event.write f.name b]
      ∧ (f.Write b w).2.1 = { f with offset := writePos f data + b.length } := by
  unfold File.Write at h ⊢
  by_cases hc : f.closed = true
  · simp [hc] at h
  · by_cases hw : f.writable = true
    · cases hn : w.fs f.name with
      | regular data =>
        simp only [hc, hw, hn, Bool.false_eq_true, if_false, Bool.not_true] at h ⊢
        refine ⟨data, rfl, ?_⟩
        cases hl : w.fileSizeLimit with
        | none =>
          simp only [hl, List.take_length, writePos]
          exact ⟨trivial, trivial, trivial⟩
        | some limit =>
          simp only [hl] at h ⊢
          by_cases hlt : min b.length (limit - (if f.appendMode = true then data.length
              else f.offset)) < b.length
          · simp [hlt] at h
          · have hmin : min b.length (limit - (if f.appendMode = true then data.length
                else f.offset)) = b.length := by omega
            simp only [writePos, hmin, List.take_length]
            exact ⟨trivial, trivial, trivial⟩
      | absent => simp [hc, hw, hn] at h
      | socket => simp [hc, hw, hn] at h
      | unopenable e => simp [hc, hw, hn] at h
    · simp [hc, hw] at h

/-- The method `Encode` leaves the rest of the world as it is. -/
theorem Encode_ext {M σ : Type} (lib : Lib M) (enc : Encoder) (f : File) (v : Message M)
    (w : World σ) : (enc.Encode lib f v w).2.2.2.ext = w.ext := by
  unfold Encoder.Encode
  cases he : enc.err with
  | some e => rfl
  | none =>
    cases hm : marshal lib v enc.escapeHTML with
    | error e => rfl
    | ok e =>
      simp only
      have hw := Write_ext f (e ++ [byte '\n']) w
      generalize f.Write (e ++ [byte '\n']) w = R at hw ⊢
      obtain ⟨⟨n, _ | err⟩, f1, w1⟩ := R <;> exact hw

/-- An `Encode` that reports no error has marshalled the record and written
its line, whole, at the write position. -/
theorem Encode_ok {M σ : Type} (lib : Lib M) (enc : Encoder) (f : File) (v : Message M)
    (w : World σ) (h : (enc.Encode lib f v w).1 = none) :
    ∃ text data, marshal lib v enc.escapeHTML = Except.ok text
      ∧ w.fs f.name = Node.regular data
      ∧ (enc.Encode lib f v w).2.2.2.fs
          = setNode w.fs f.name (Node.regular (writeAt data (writePos f data) (recordLine text)))
      ∧ (enc.Encode lib f v w).2.2.2.trace = w.trace ++ [Event.write f.name (recordLine text)]
      ∧ (enc.Encode lib f v w).2.2.1
          = { f with offset := writePos f data + (recordLine text).length }
      ∧ (enc.Encode lib f v w).2.1 = enc := by
  unfold Encoder.Encode at h ⊢
  cases he : enc.err with
  | some e => simp [he] at h
  | none =>
    cases hm : marshal lib v enc.escapeHTML with
    | error e => simp [he, hm] at h
    | ok text =>
      simp only [he, hm] at h ⊢
      have hw := Write_ok f (text ++ [byte '\n']) w
      generalize f.Write (text ++ [byte '\n']) w = R at hw h ⊢
      obtain ⟨⟨n, _ | err⟩, f1, w1⟩ := R
      · obtain ⟨data, h1, h2, h3, h4⟩ := hw rfl
        exact ⟨text, data, rfl, h1, h2, h3, h4, rfl⟩
      · simp at h

/-- The method `Intercept`, phase by phase: a failed write of either record ends the
process through `must`; otherwise the handler's pair is returned. -/
theorem Intercept_eq {C M σ : Type} (lib : Lib M) (li : LoggingInterceptor) (ctx : C)
    (req : GoAny M) (info : UnaryServerInfo) (handler : UnaryHandler C M σ) (w : World σ) :
    li.Intercept lib ctx req info handler w =
      match (requestWrite lib li req info w).1 with
      | some e =>
        (Outcome.exited 1,
          { f := (requestWrite lib li req info w).2.2.1,
            encoder := (requestWrite lib li req info w).2.1 },
          { (requestWrite lib li req info w).2.2.2 with
            trace := (requestWrite lib li req info w).2.2.2.trace
              ++ [Event.log e, Event.exit 1] })
      | none =>
        match (responseWrite lib li ctx req info handler w).1 with
        | some e =>
          (Outcome.exited 1,
            { f := (responseWrite lib li ctx req info handler w).2.2.1,
              encoder := (responseWrite lib li ctx req info handler w).2.1 },
            { (responseWrite lib li ctx req info handler w).2.2.2 with
              trace := (responseWrite lib li ctx req info handler w).2.2.2.trace
                ++ [Event.log e, Event.exit 1] })
        | none =>
          (Outcome.returned (handlerCall lib li ctx req info handler w).1,
            { f := (responseWrite lib li ctx req info handler w).2.2.1,
              encoder := (responseWrite lib li ctx req info handler w).2.1 },
            (responseWrite lib li ctx req info handler w).2.2.2) := by
  unfold responseWrite handlerCall
  generalize hE : requestWrite lib li req info w = E
  unfold LoggingInterceptor.Intercept
  unfold requestWrite requestMsg at hE
  simp only [hE]
  obtain ⟨e1, enc1, f1, w1⟩ := E
  cases e1 with
  | some e => rfl
  | none =>
    simp only [must]
    generalize hH : handler ctx req w1 = H
    obtain ⟨⟨resp, err⟩, w3⟩ := H
    simp only [responseMsg]
    generalize hR : enc1.Encode lib f1 _ w3 = R
    obtain ⟨e2, enc2, f2, w4⟩ := R
    cases e2 <;> rfl

/-- C1: when both records are written successfully, `Intercept` returns
exactly the (result, error) pair of one invocation of the handler on the
context and request it received, whatever the error is; the handler runs once:
it starts from the state the call started from and the call ends in the state
that one invocation left. -/
theorem Intercept_returns_handler_pair {C M σ : Type} (lib : Lib M)
    (li : LoggingInterceptor) (ctx : C) (req : GoAny M) (info : UnaryServerInfo)
    (handler : UnaryHandler C M σ) (w : World σ)
    (hreq : (requestWrite lib li req info w).1 = none)
    (hresp : (responseWrite lib li ctx req info handler w).1 = none) :
    (li.Intercept lib ctx req info handler w).1
        = Outcome.returned (handler ctx req (requestWrite lib li req info w).2.2.2).1
      ∧ (requestWrite lib li req info w).2.2.2.ext = w.ext
      ∧ (li.Intercept lib ctx req info handler w).2.2.ext
          = (handler ctx req (requestWrite lib li req info w).2.2.2).2.ext := by
  rw [Intercept_eq]
  simp only [hreq, hresp]
  refine ⟨rfl, ?_, ?_⟩
  · exact Encode_ext lib li.encoder li.f _ _
  · exact Encode_ext lib _ _ _ _

/-- C1 at a `Stat` call whose handler returns a result together with the error
`boom`: the pair comes back as it is, and the handler has run once. -/
theorem Intercept_returns_handler_pair_witness :
    (requestWrite (sampleLib false) sampleSink statReq statInfo
        (sampleWorld (some []) none)).1 = none
      ∧ (responseWrite (sampleLib false) sampleSink () statReq statInfo
          (sampleHandler (statResp, some "boom")) (sampleWorld (some []) none)).1 = none
      ∧ (sampleSink.Intercept (sampleLib false) () statReq statInfo
          (sampleHandler (statResp, some "boom")) (sampleWorld (some []) none)).1
          = Outcome.returned (statResp, some "boom")
      ∧ (sampleSink.Intercept (sampleLib false) () statReq statInfo
          (sampleHandler (statResp, some "boom")) (sampleWorld (some []) none)).2.2.ext = 1 :=
  have h := Intercept_returns_handler_pair (sampleLib false) sampleSink () statReq statInfo
    (sampleHandler (statResp, some "boom")) (sampleWorld (some []) none)
    (by decide) (by decide)
  ⟨by decide, by decide, h.1, h.2.2⟩

/-- What a call on which both writes succeed sends to the sink: exactly two
lines. Before the handler is invoked `Intercept` has logged and written the
line of the record of type `request` carrying the request; after the handler
has returned it writes one more line, that of the record of type `response`
carrying the handler's result; both records carry `info.FullMethod`. In the
file each line lands whole at the sink's write position (which need not be
the end of the log), the second where the first ended. -/
theorem Intercept_writes_request_then_response {C M σ : Type} (lib : Lib M)
    (li : LoggingInterceptor) (ctx : C) (req : GoAny M) (info : UnaryServerInfo)
    (handler : UnaryHandler C M σ) (w : World σ)
    (hreq : (requestWrite lib li req info w).1 = none)
    (hresp : (responseWrite lib li ctx req info handler w).1 = none) :
    ∃ reqText respText d0 d1,
      marshal lib { kind := "request", method := info.FullMethod, msg := req }
          li.encoder.escapeHTML = Except.ok reqText
      ∧ marshal lib { kind := "response", method := info.FullMethod,
                      msg := (handlerCall lib li ctx req info handler w).1.1 }
          li.encoder.escapeHTML = Except.ok respText
      ∧ (requestWrite lib li req info w).2.2.2.trace
          = w.trace ++ [Event.log "intercepting", Event.write li.f.name (recordLine reqText)]
      ∧ (li.Intercept lib ctx req info handler w).2.2.trace
          = (handlerCall lib li ctx req info handler w).2.trace
            ++ [Event.write li.f.name (recordLine respText)]
      ∧ w.fs li.f.name = Node.regular d0
      ∧ (requestWrite lib li req info w).2.2.2.fs
          = setNode w.fs li.f.name
              (Node.regular (writeAt d0 (writePos li.f d0) (recordLine reqText)))
      ∧ (handlerCall lib li ctx req info handler w).2.fs li.f.name = Node.regular d1
      ∧ (li.Intercept lib ctx req info handler w).2.2.fs
          = setNode (handlerCall lib li ctx req info handler w).2.fs li.f.name
              (Node.regular (writeAt d1
                (writePos { li.f with offset := writePos li.f d0 + (recordLine reqText).length } d1)
                (recordLine respText))) := by
  obtain ⟨reqText, d0, hm1, hd0, hfs1, htr1, hf1, henc1⟩ :=
    Encode_ok lib li.encoder li.f (requestMsg info req)
      { w with trace := w.trace ++ [Event.log "intercepting"] } hreq
  obtain ⟨respText, d1, hm2, hd1, hfs2, htr2, _, _⟩ :=
    Encode_ok lib (requestWrite lib li req info w).2.1 (requestWrite lib li req info w).2.2.1
      (responseMsg info (handlerCall lib li ctx req info handler w).1.1)
      (handlerCall lib li ctx req info handler w).2 hresp
  have hf1' : (requestWrite lib li req info w).2.2.1
      = { li.f with offset := writePos li.f d0 + (recordLine reqText).length } := hf1
  have henc1' : (requestWrite lib li req info w).2.1 = li.encoder := henc1
  rw [henc1'] at hm2
  refine ⟨reqText, respText, d0, d1, hm1, hm2, ?_, ?_, hd0, hfs1, ?_, ?_⟩
  · have : (requestWrite lib li req info w).2.2.2.trace
        = (w.trace ++ [Event.log "intercepting"]) ++ [Event.write li.f.name (recordLine reqText)] :=
      htr1
    rw [this, List.append_assoc]
    rfl
  · rw [Intercept_eq]
    simp only [hreq, hresp]
    exact htr2.trans (by rw [hf1'])
  · exact (by rw [hf1'] : (handlerCall lib li ctx req info handler w).2.fs li.f.name
        = (handlerCall lib li ctx req info handler w).2.fs
            (requestWrite lib li req info w).2.2.1.name).trans hd1
  · rw [Intercept_eq]
    simp only [hreq, hresp]
    exact hfs2.trans (by rw [hf1'])

/-- The call `Stat(key="abc")` returning `{size: 42}` on an empty log, with the
schema encoder's spaced output: the log holds the request line and then the
response line, compacted. -/
theorem Intercept_writes_request_then_response_witness :
    (requestWrite (sampleLib true) sampleSink statReq statInfo
        (sampleWorld (some []) none)).1 = none
      ∧ (responseWrite (sampleLib true) sampleSink () statReq statInfo
          (sampleHandler (statResp, none)) (sampleWorld (some []) none)).1 = none
      ∧ (∃ reqText respText : List Nat,
          recordLine reqText = utf8 statRequestLine
          ∧ recordLine respText = utf8 statResponseLine
          ∧ (sampleSink.Intercept (sampleLib true) () statReq statInfo
              (sampleHandler (statResp, none)) (sampleWorld (some []) none)).2.2.trace
              = [Event.log "intercepting",
                 Event.write defaultFlags.intercepts (recordLine reqText),
                 Event.write defaultFlags.intercepts (recordLine respText)])
      ∧ logData defaultFlags
          (sampleSink.Intercept (sampleLib true) () statReq statInfo
            (sampleHandler (statResp, none)) (sampleWorld (some []) none)).2.2
          = utf8 statRequestLine ++ utf8 statResponseLine := by
  obtain ⟨reqText, respText, d0, d1, hm1, hm2, htr1, htr2, _, _, _, _⟩ :=
    Intercept_writes_request_then_response (sampleLib true) sampleSink () statReq statInfo
      (sampleHandler (statResp, none)) (sampleWorld (some []) none) (by decide) (by decide)
  refine ⟨by decide, by decide, ⟨reqText, respText, ?_, ?_, ?_⟩, by decide⟩
  · have h : marshal (sampleLib true)
        { kind := "request", method := statInfo.FullMethod, msg := statReq } true
        = Except.ok ((utf8 statRequestLine).take 58) := by rfl
    have := hm1.symm.trans h
    injection this with this
    rw [this]
    decide
  · have h : marshal (sampleLib true)
        { kind := "response", method := statInfo.FullMethod, msg := statResp } true
        = Except.ok ((utf8 statResponseLine).take 57) := by rfl
    have := hm2.symm.trans h
    injection this with this
    rw [this]
    decide
  · rw [htr2]
    have : (handlerCall (sampleLib true) sampleSink () statReq statInfo
        (sampleHandler (statResp, none)) (sampleWorld (some []) none)).2.trace
        = (requestWrite (sampleLib true) sampleSink statReq statInfo
            (sampleWorld (some []) none)).2.2.2.trace := rfl
    rw [this, htr1]
    rfl

/-- A record that `MarshalJSON` rejects makes `Encode` fail and leaves the
world as it was: nothing is written. -/
theorem Encode_marshal_error {M σ : Type} (lib : Lib M) (enc : Encoder) (f : File)
    (v : Message M) (w : World σ) (h : (v.MarshalJSON lib).2 ≠ none) :
    (enc.Encode lib f v w).1 ≠ none ∧ (enc.Encode lib f v w).2.2.2 = w := by
  have hm : ∃ e, marshal lib v enc.escapeHTML = Except.error e := by
    unfold marshal
    rcases hv : v.MarshalJSON lib with ⟨b, _ | err⟩
    · rw [hv] at h
      exact absurd rfl h
    · exact ⟨_, rfl⟩
  obtain ⟨e, he⟩ := hm
  unfold Encoder.Encode
  cases henc : enc.err with
  | some e0 => simp
  | none => simp [he]

/-- C2, amended: a failed write of either record ends the process: `must`
logs the error and exits with status 1, so `Intercept` does not return. When
it is the REQUEST write that fails the handler has not been invoked; when it
is the RESPONSE write the handler has been invoked once and its pair is
dropped. A record whose payload `MarshalJSON` rejects writes nothing. -/
theorem Intercept_exits_on_failed_write {C M σ : Type} (lib : Lib M)
    (li : LoggingInterceptor) (ctx : C) (req : GoAny M) (info : UnaryServerInfo)
    (handler : UnaryHandler C M σ) (w : World σ) (e : GoError)
    (h : (requestWrite lib li req info w).1 = some e
      ∨ ((requestWrite lib li req info w).1 = none
          ∧ (responseWrite lib li ctx req info handler w).1 = some e)) :
    (li.Intercept lib ctx req info handler w).1 = Outcome.exited 1
      ∧ ((requestWrite lib li req info w).1 = some e →
          (li.Intercept lib ctx req info handler w).2.2.ext = w.ext
          ∧ (li.Intercept lib ctx req info handler w).2.2.trace
              = (requestWrite lib li req info w).2.2.2.trace ++ [Event.log e, Event.exit 1])
      ∧ ((requestWrite lib li req info w).1 = none →
          (li.Intercept lib ctx req info handler w).2.2.ext
              = (handler ctx req (requestWrite lib li req info w).2.2.2).2.ext
          ∧ (li.Intercept lib ctx req info handler w).2.2.trace
              = (responseWrite lib li ctx req info handler w).2.2.2.trace
                ++ [Event.log e, Event.exit 1])
      ∧ (((requestMsg info req).MarshalJSON lib).2 ≠ none →
          (li.Intercept lib ctx req info handler w).2.2.fs = w.fs)
      ∧ ((requestWrite lib li req info w).1 = none →
          ((responseMsg info (handlerCall lib li ctx req info handler w).1.1).MarshalJSON lib).2
            ≠ none →
          (li.Intercept lib ctx req info handler w).2.2.fs
            = (handlerCall lib li ctx req info handler w).2.fs) := by
  have hext1 : (requestWrite lib li req info w).2.2.2.ext = w.ext :=
    Encode_ext lib li.encoder li.f _ _
  have hext2 : (responseWrite lib li ctx req info handler w).2.2.2.ext
      = (handlerCall lib li ctx req info handler w).2.ext := Encode_ext lib _ _ _ _
  rw [Intercept_eq]
  rcases h with h1 | ⟨h1, h2⟩
  · simp only [h1]
    refine ⟨trivial, fun _ => ⟨hext1, trivial⟩, fun hn => by simp at hn, fun hm => ?_,
      fun hn => by simp at hn⟩
    have := (Encode_marshal_error lib li.encoder li.f (requestMsg info req)
      { w with trace := w.trace ++ [Event.log "intercepting"] } hm).2
    show (requestWrite lib li req info w).2.2.2.fs = w.fs
    unfold requestWrite
    rw [this]
  · simp only [h1, h2]
    refine ⟨trivial, fun hn => by simp at hn, fun _ => ⟨hext2, trivial⟩, fun hm => ?_,
      fun _ hm => ?_⟩
    · have := (Encode_marshal_error lib li.encoder li.f (requestMsg info req)
        { w with trace := w.trace ++ [Event.log "intercepting"] } hm).1
      exact absurd h1 this
    · have := (Encode_marshal_error lib (requestWrite lib li req info w).2.1
        (requestWrite lib li req info w).2.2.1
        (responseMsg info (handlerCall lib li ctx req info handler w).1.1)
        (handlerCall lib li ctx req info handler w).2 hm).2
      show (responseWrite lib li ctx req info handler w).2.2.2.fs = _
      unfold responseWrite
      rw [this]

/-- C2 amended, at a call whose request is the nil interface: the REQUEST
write fails, the process exits with status 1 and the handler has not run. -/
theorem Intercept_exits_on_failed_write_witness :
    (requestWrite (sampleLib false) sampleSink (GoAny.nil : GoAny Sample) statInfo
        (sampleWorld (some []) none)).1
        = some "json: error calling MarshalJSON for type *main.Message: message had unexpected type <nil>"
      ∧ (sampleSink.Intercept (sampleLib false) () GoAny.nil statInfo
          (sampleHandler (statResp, none)) (sampleWorld (some []) none)).1 = Outcome.exited 1
      ∧ (sampleSink.Intercept (sampleLib false) () GoAny.nil statInfo
          (sampleHandler (statResp, none)) (sampleWorld (some []) none)).2.2.ext = 0 :=
  have h := Intercept_exits_on_failed_write (sampleLib false) sampleSink () GoAny.nil statInfo
    (sampleHandler (statResp, none)) (sampleWorld (some []) none)
    "json: error calling MarshalJSON for type *main.Message: message had unexpected type <nil>"
    (Or.inl (by decide))
  ⟨by decide, h.1, (h.2.1 (by decide)).1⟩

/-- C2 as stated fails: on a request that is not a schema message the REQUEST
write fails, and then the handler is not invoked (its counter stays 0) and
the call does not return the handler's pair: the process exits with status 1.
The same happens when only the append fails (a log that may not grow). -/
theorem Intercept_logging_failure_is_fatal :
    (requestWrite (sampleLib false) sampleSink (GoAny.other "string" : GoAny Sample) statInfo
        (sampleWorld (some []) none)).1 ≠ none
      ∧ (sampleSink.Intercept (sampleLib false) () (GoAny.other "string") statInfo
          (sampleHandler (statResp, none)) (sampleWorld (some []) none)).1
          ≠ Outcome.returned (statResp, none)
      ∧ (sampleSink.Intercept (sampleLib false) () (GoAny.other "string") statInfo
          (sampleHandler (statResp, none)) (sampleWorld (some []) none)).1 = Outcome.exited 1
      ∧ (sampleSink.Intercept (sampleLib false) () (GoAny.other "string") statInfo
          (sampleHandler (statResp, none)) (sampleWorld (some []) none)).2.2.ext = 0
      ∧ (sampleSink.Intercept (sampleLib false) () statReq statInfo
          (sampleHandler (statResp, none)) (sampleWorld (some []) (some 10))).1
          = Outcome.exited 1
      ∧ logData defaultFlags (sampleSink.Intercept (sampleLib false) () statReq statInfo
          (sampleHandler (statResp, none)) (sampleWorld (some []) (some 10))).2.2
          = (utf8 statRequestLine).take 10 := by
  decide

/-- The RESPONSE write of a call whose two writes succeed: its line is the
encoding of the record built from the handler's result. -/
theorem responseWrite_ok {C M σ : Type} (lib : Lib M)
    (li : LoggingInterceptor) (ctx : C) (req : GoAny M) (info : UnaryServerInfo)
    (handler : UnaryHandler C M σ) (w : World σ)
    (hreq : (requestWrite lib li req info w).1 = none)
    (hresp : (responseWrite lib li ctx req info handler w).1 = none) :
    ∃ text,
      marshal lib { kind := "response", method := info.FullMethod,
                    msg := (handlerCall lib li ctx req info handler w).1.1 }
          li.encoder.escapeHTML = Except.ok text
      ∧ (responseWrite lib li ctx req info handler w).2.2.2.trace
          = (handlerCall lib li ctx req info handler w).2.trace
            ++ [Event.write li.f.name (recordLine text)] := by
  obtain ⟨reqText, d0, _, _, _, _, hf1, henc1⟩ :=
    Encode_ok lib li.encoder li.f (requestMsg info req)
      { w with trace := w.trace ++ [Event.log "intercepting"] } hreq
  obtain ⟨respText, d1, hm2, _, _, htr2, _, _⟩ :=
    Encode_ok lib (requestWrite lib li req info w).2.1 (requestWrite lib li req info w).2.2.1
      (responseMsg info (handlerCall lib li ctx req info handler w).1.1)
      (handlerCall lib li ctx req info handler w).2 hresp
  have hf1' : (requestWrite lib li req info w).2.2.1
      = { li.f with offset := writePos li.f d0 + (recordLine reqText).length } := hf1
  have henc1' : (requestWrite lib li req info w).2.1 = li.encoder := henc1
  rw [henc1'] at hm2
  exact ⟨respText, hm2, htr2.trans (by rw [hf1'])⟩

/-- C3 as stated fails. A handler that returns the nil result with the error
`boom`: the RESPONSE write fails, the log holds the request line only, and
the process exits instead of returning the error. A handler that returns a
result with the error `boom`: the log is the one of the same call without an
error, so the record does not represent the failure. -/
theorem Intercept_does_not_record_error :
    (sampleSink.Intercept (sampleLib false) () statReq statInfo
        (sampleHandler (GoAny.nil, some "boom")) (sampleWorld (some []) none)).1
        = Outcome.exited 1
      ∧ logData defaultFlags (sampleSink.Intercept (sampleLib false) () statReq statInfo
          (sampleHandler (GoAny.nil, some "boom")) (sampleWorld (some []) none)).2.2
          = utf8 statRequestLine
      ∧ logData defaultFlags (sampleSink.Intercept (sampleLib false) () statReq statInfo
          (sampleHandler (statResp, some "boom")) (sampleWorld (some []) none)).2.2
          = utf8 statRequestLine ++ utf8 statResponseLine
      ∧ logData defaultFlags (sampleSink.Intercept (sampleLib false) () statReq statInfo
          (sampleHandler (statResp, some "boom")) (sampleWorld (some []) none)).2.2
          = logData defaultFlags (sampleSink.Intercept (sampleLib false) () statReq statInfo
              (sampleHandler (statResp, none)) (sampleWorld (some []) none)).2.2 := by
  decide

/-- C3, amended: on a call whose REQUEST record was written and whose handler
returns a non-nil error, the RESPONSE record is built from the returned result
alone. If its write succeeds, the line written is the encoding of the record
of type `response` carrying that result, and the pair (result, error) is
returned unchanged; if the result is the nil interface, nothing is written
for the response and the process exits with status 1. -/
theorem Intercept_response_from_result_only {C M σ : Type} (lib : Lib M)
    (li : LoggingInterceptor) (ctx : C) (req : GoAny M) (info : UnaryServerInfo)
    (handler : UnaryHandler C M σ) (w : World σ) (e : GoError)
    (hreq : (requestWrite lib li req info w).1 = none)
    (herr : (handlerCall lib li ctx req info handler w).1.2 = some e) :
    ((responseWrite lib li ctx req info handler w).1 = none →
        (li.Intercept lib ctx req info handler w).1
            = Outcome.returned ((handlerCall lib li ctx req info handler w).1.1, some e)
        ∧ ∃ text,
            marshal lib { kind := "response", method := info.FullMethod,
                          msg := (handlerCall lib li ctx req info handler w).1.1 }
                li.encoder.escapeHTML = Except.ok text
            ∧ (li.Intercept lib ctx req info handler w).2.2.trace
                = (handlerCall lib li ctx req info handler w).2.trace
                  ++ [Event.write li.f.name (recordLine text)])
      ∧ ((handlerCall lib li ctx req info handler w).1.1 = GoAny.nil →
          (li.Intercept lib ctx req info handler w).1 = Outcome.exited 1
          ∧ (li.Intercept lib ctx req info handler w).2.2.fs
              = (handlerCall lib li ctx req info handler w).2.fs) := by
  constructor
  · intro hresp
    obtain ⟨respText, hm2, htr2⟩ := responseWrite_ok lib li ctx req info handler w hreq hresp
    refine ⟨?_, respText, hm2, ?_⟩
    · rw [Intercept_eq]
      simp only [hreq, hresp]
      rw [← herr]
    · rw [Intercept_eq]
      simp only [hreq, hresp]
      exact htr2
  · intro hnil
    have hm : ((responseMsg info (handlerCall lib li ctx req info handler w).1.1).MarshalJSON
        lib).2 ≠ none := by
      rw [hnil]
      simp [responseMsg, Message.MarshalJSON]
    have hE := Encode_marshal_error lib (requestWrite lib li req info w).2.1
      (requestWrite lib li req info w).2.2.1
      (responseMsg info (handlerCall lib li ctx req info handler w).1.1)
      (handlerCall lib li ctx req info handler w).2 hm
    have hw : (responseWrite lib li ctx req info handler w).2.2.2
        = (handlerCall lib li ctx req info handler w).2 := hE.2
    have hne : (responseWrite lib li ctx req info handler w).1 ≠ none := hE.1
    rw [Intercept_eq]
    simp only [hreq]
    cases h2 : (responseWrite lib li ctx req info handler w).1 with
    | none => exact absurd h2 hne
    | some e2 =>
      simp only
      rw [hw]
      exact ⟨trivial, rfl⟩

/-- C3 amended, at a `Stat` call whose handler returns `{size: 42}` with the
error `boom`: the response line is the one of the result, and the pair comes
back. -/
theorem Intercept_response_from_result_only_witness :
    (requestWrite (sampleLib false) sampleSink statReq statInfo
        (sampleWorld (some []) none)).1 = none
      ∧ (handlerCall (sampleLib false) sampleSink () statReq statInfo
          (sampleHandler (statResp, some "boom")) (sampleWorld (some []) none)).1.2 = some "boom"
      ∧ (sampleSink.Intercept (sampleLib false) () statReq statInfo
          (sampleHandler (statResp, some "boom")) (sampleWorld (some []) none)).1
          = Outcome.returned (statResp, some "boom")
      ∧ (sampleSink.Intercept (sampleLib false) () statReq statInfo
          (sampleHandler (statResp, some "boom")) (sampleWorld (some []) none)).2.2.trace
          = [Event.log "intercepting",
             Event.write defaultFlags.intercepts (utf8 statRequestLine),
             Event.write defaultFlags.intercepts (utf8 statResponseLine)] :=
  have h := (Intercept_response_from_result_only (sampleLib false) sampleSink () statReq
    statInfo (sampleHandler (statResp, some "boom")) (sampleWorld (some []) none) "boom"
    (by decide) (by decide)).1 (by decide)
  ⟨by decide, by decide, h.1, by decide⟩

/-- Opening an existing log with `New` keeps what it holds and positions the
sink at offset 0, not in append mode; the first bytes written then replace
the first bytes of the log. -/
theorem New_then_Write {M σ : Type} (lib : Lib M) (flags : Flags) (w : World σ)
    (old b : List Nat) (hold : w.fs flags.intercepts = Node.regular old)
    (hlimit : w.fileSizeLimit = none) :
    ∃ li w1, New lib flags w = (Except.ok li, w1)
      ∧ li.f.offset = 0 ∧ li.f.appendMode = false
      ∧ logData flags w1 = old
      ∧ logData flags (li.f.Write b w1).2.2 = writeAt old 0 b := by
  have hflag : (O_RDWR ||| O_CREATE) &&& O_APPEND = 0 := by decide
  have hflag2 : (O_RDWR ||| O_CREATE) &&& O_EXCL = 0 := by decide
  have hflag3 : (O_RDWR ||| O_CREATE) &&& O_TRUNC = 0 := by decide
  have hflag4 : (O_RDWR ||| O_CREATE) &&& 3 = 2 := by decide
  refine ⟨{ f := { name := flags.intercepts, offset := 0, appendMode := false,
                   writable := true, closed := false }, encoder := NewEncoder },
    { w with trace := w.trace ++ [Event.open flags.intercepts] }, ?_, rfl, rfl, ?_, ?_⟩
  · unfold New OpenFile
    simp [hold, hflag, hflag2, hflag3, hflag4]
  · simp [logData, hold]
  · simp [logData, File.Write, hold, hlimit, setNode]

/-- C7 fails on the code: a run that opens, with `New`, a log holding three
lines (173 bytes) and intercepts one `Stat` call. The open keeps the old
bytes, but the two new lines (117 bytes) are written from offset 0: they
replace the first 117 bytes of the old log, and what follows them is the tail
of the old third line. The log is not the old content followed by the new
lines. -/
theorem New_overwrites_existing_log :
    (New (sampleLib false) defaultFlags (sampleWorld (some (utf8 oldLog)) none)).1
        = Except.ok sampleSink
      ∧ logData defaultFlags
          (New (sampleLib false) defaultFlags (sampleWorld (some (utf8 oldLog)) none)).2
          = utf8 oldLog
      ∧ logData defaultFlags (sampleSink.Intercept (sampleLib false) () statReq statInfo
          (sampleHandler (statResp, none))
          (New (sampleLib false) defaultFlags (sampleWorld (some (utf8 oldLog)) none)).2).2.2
          = utf8 statRequestLine ++ utf8 statResponseLine ++ (utf8 oldLog).drop 117
      ∧ logData defaultFlags (sampleSink.Intercept (sampleLib false) () statReq statInfo
          (sampleHandler (statResp, none))
          (New (sampleLib false) defaultFlags (sampleWorld (some (utf8 oldLog)) none)).2).2.2
          ≠ utf8 oldLog ++ utf8 statRequestLine ++ utf8 statResponseLine
      ∧ (utf8 oldLog).drop 117
          = utf8 "hod\":\"Remove\",\"type\":\"request\",\"message\":\x7b\"key\":\"xyz\"\x7d\x7d\n" :=
  ⟨rfl, by decide, by decide, by decide, by decide⟩

/-- C8 fails on the code: for the method name U+0007 `MarshalJSON` returns a
text in which `%q` has written the name as `\a`, an escape JSON does not
have: the text is not well-formed JSON (`json.Valid` rejects it), so there is
nothing to parse back. `Encode` rejects it too, and the call that carries this
name ends the process with nothing logged. -/
theorem MarshalJSON_bell_is_not_JSON :
    (requestMsg bellInfo statReq).MarshalJSON (sampleLib false)
        = (some ("\x7b\"method\": \"\\a\", \"type\": \"request\", "
            ++ "\"message\": \x7b\"key\":\"abc\"\x7d\x7d"), none)
      ∧ Valid (utf8 ("\x7b\"method\": \"\\a\", \"type\": \"request\", "
            ++ "\"message\": \x7b\"key\":\"abc\"\x7d\x7d")) = false
      ∧ (sampleSink.Intercept (sampleLib false) () statReq bellInfo
          (sampleHandler (statResp, none)) (sampleWorld (some []) none)).1 = Outcome.exited 1
      ∧ logData defaultFlags (sampleSink.Intercept (sampleLib false) () statReq bellInfo
          (sampleHandler (statResp, none)) (sampleWorld (some []) none)).2.2 = [] := by
  decide

/-- The method `File.Write` changes nothing of the file but its offset. -/
theorem Write_closed {σ : Type} (f : File) (b : List Nat) (w : World σ) :
    (f.Write b w).2.1.closed = f.closed := by
  unfold File.Write
  split
  · rfl
  · split
    · rfl
    · split <;> rfl

/-- The method `Encode` does not close the file. -/
theorem Encode_closed {M σ : Type} (lib : Lib M) (enc : Encoder) (f : File) (v : Message M)
    (w : World σ) : (enc.Encode lib f v w).2.2.1.closed = f.closed := by
  unfold Encoder.Encode
  cases he : enc.err with
  | some e => rfl
  | none =>
    cases hm : marshal lib v enc.escapeHTML with
    | error e => rfl
    | ok e =>
      simp only
      have hw := Write_closed f (e ++ [byte '\n']) w
      generalize f.Write (e ++ [byte '\n']) w = R at hw ⊢
      obtain ⟨⟨n, _ | err⟩, f1, w1⟩ := R <;> exact hw

/-- The method `Intercept` does not close the sink. -/
theorem Intercept_closed {C M σ : Type} (lib : Lib M) (li : LoggingInterceptor) (ctx : C)
    (req : GoAny M) (info : UnaryServerInfo) (handler : UnaryHandler C M σ) (w : World σ) :
    (li.Intercept lib ctx req info handler w).2.1.f.closed = li.f.closed := by
  have h1 : (requestWrite lib li req info w).2.2.1.closed = li.f.closed :=
    Encode_closed lib li.encoder li.f _ _
  have h2 : (responseWrite lib li ctx req info handler w).2.2.1.closed
      = (requestWrite lib li req info w).2.2.1.closed := Encode_closed lib _ _ _ _
  rw [Intercept_eq]
  cases (requestWrite lib li req info w).1 with
  | some e => exact h1
  | none =>
    cases (responseWrite lib li ctx req info handler w).1 with
    | some e => exact h2.trans h1
    | none => exact h2.trans h1

/-- A call that ends the process does so with status 1, right after logging
the error. -/
theorem Intercept_exit {C M σ : Type} (lib : Lib M) (li : LoggingInterceptor) (ctx : C)
    (req : GoAny M) (info : UnaryServerInfo) (handler : UnaryHandler C M σ) (w : World σ)
    (code : Nat) (h : (li.Intercept lib ctx req info handler w).1 = Outcome.exited code) :
    code = 1 ∧ ∃ pre e, (li.Intercept lib ctx req info handler w).2.2.trace
      = pre ++ [Event.log e, Event.exit 1] := by
  rw [Intercept_eq] at h ⊢
  cases h1 : (requestWrite lib li req info w).1 with
  | some e =>
    simp only [h1] at h ⊢
    injection h with h
    exact ⟨h.symm, _, e, rfl⟩
  | none =>
    simp only [h1] at h ⊢
    cases h2 : (responseWrite lib li ctx req info handler w).1 with
    | some e =>
      simp only [h2] at h ⊢
      injection h with h
      exact ⟨h.symm, _, e, rfl⟩
    | none => simp [h2] at h

/-- The server does not close the sink, and a run of it that ends the process
does so with status 1, right after logging the error. -/
theorem serveCalls_spec {C M σ : Type} (lib : Lib M) (calls : List (Call C M σ)) :
    ∀ (li : LoggingInterceptor) (w : World σ),
      (serveCalls lib calls li w).2.1.f.closed = li.f.closed
      ∧ ∀ code, (serveCalls lib calls li w).1 = Outcome.exited code →
          code = 1 ∧ ∃ pre e, (serveCalls lib calls li w).2.2.trace
            = pre ++ [Event.log e, Event.exit 1] := by
  induction calls with
  | nil =>
    intro li w
    refine ⟨rfl, fun code h => ?_⟩
    simp [serveCalls] at h
  | cons c rest ih =>
    intro li w
    have hc := Intercept_closed lib li c.ctx c.req c.info c.handler w
    have hx := Intercept_exit lib li c.ctx c.req c.info c.handler w
    unfold serveCalls
    generalize li.Intercept lib c.ctx c.req c.info c.handler w = R at hc hx ⊢
    obtain ⟨o, li1, w1⟩ := R
    cases o with
    | exited code1 =>
      refine ⟨hc, fun code h => ?_⟩
      simp only at h
      injection h with h
      subst h
      exact hx code1 rfl
    | returned r =>
      simp only
      obtain ⟨h1, h2⟩ := ih li1 w1
      exact ⟨h1.trans hc, h2⟩

/-- C9 as stated fails: `main` never invokes `Close`. A run in which nothing
fails and the interrupt arrives after one call exits with status 0, its sink
still open and no close among its actions; a run in which `net.Listen` fails
exits with status 1, the sink it had opened still open. -/
theorem main_never_closes_sink :
    (main (sampleLib false) defaultFlags quietEnv (sampleWorld none none)).1 = 0
      ∧ (main (sampleLib false) defaultFlags quietEnv (sampleWorld none none)).2.1
          = some { sampleSink with f := { sampleSink.f with offset := 117 } }
      ∧ ((main (sampleLib false) defaultFlags quietEnv (sampleWorld none none)).2.1.map
          (fun li => li.f.closed)) = some false
      ∧ (main (sampleLib false) defaultFlags quietEnv (sampleWorld none none)).2.2.trace
          = [Event.open defaultFlags.intercepts, Event.newServer,
             Event.newSnapshotter defaultFlags.root, Event.register,
             Event.listen defaultFlags.addr, Event.notify, Event.serve,
             Event.log "intercepting",
             Event.write defaultFlags.intercepts (utf8 statRequestLine),
             Event.write defaultFlags.intercepts (utf8 statResponseLine),
             Event.interrupt, Event.stop, Event.remove defaultFlags.addr, Event.exit 0]
      ∧ Event.close defaultFlags.intercepts
          ∉ (main (sampleLib false) defaultFlags quietEnv (sampleWorld none none)).2.2.trace
      ∧ (main (sampleLib false) defaultFlags busyEnv (sampleWorld none none)).1 = 1
      ∧ ((main (sampleLib false) defaultFlags busyEnv (sampleWorld none none)).2.1.map
          (fun li => li.f.closed)) = some false
      ∧ Event.close defaultFlags.intercepts
          ∉ (main (sampleLib false) defaultFlags busyEnv (sampleWorld none none)).2.2.trace := by
  decide

/-- A file that was just opened is open. -/
theorem OpenFile_closed {σ : Type} (name : String) (flag : Nat) (w w1 : World σ) (f : File)
    (hf : OpenFile name flag w = (Except.ok f, w1)) : f.closed = false := by
  unfold OpenFile at hf
  split at hf
  · simp at hf
  · simp at hf
  · split at hf
    · simp only [Prod.mk.injEq, Except.ok.injEq] at hf
      rw [← hf.1]
    · simp at hf
  · split at hf
    · simp at hf
    · split at hf
      · simp only [Prod.mk.injEq, Except.ok.injEq] at hf
        rw [← hf.1]
      · simp only [Prod.mk.injEq, Except.ok.injEq] at hf
        rw [← hf.1]

/-- The sink `New` returns is open. -/
theorem New_closed {M σ : Type} (lib : Lib M) (flags : Flags) (w w1 : World σ)
    (li : LoggingInterceptor) (h : New lib flags w = (Except.ok li, w1)) :
    li.f.closed = false := by
  unfold New at h
  rcases hO : OpenFile flags.intercepts (O_RDWR ||| O_CREATE) w with ⟨_ | f, w2⟩
  · simp [hO] at h
  · simp only [hO, Prod.mk.injEq, Except.ok.injEq] at h
    rw [← h.1]
    exact OpenFile_closed _ _ _ _ _ hO

/-- C9, amended: once the sink is open, a run of `main` that exits through
`must` exits with status 1 right after logging the error, and `Close` has not
been invoked on the sink (it is still open); a run that is not ended by
`must` ends on the interrupt, with status 0, after the server was stopped
and then the socket path removed. -/
theorem main_exit_paths {C M σ : Type} (lib : Lib M) (flags : Flags) (env : Env C M σ)
    (w : World σ) (li : LoggingInterceptor)
    (hopen : (main lib flags env w).2.1 = some li) :
    ((main lib flags env w).1 ≠ 0 →
        (main lib flags env w).1 = 1
        ∧ li.f.closed = false
        ∧ ∃ pre e, (main lib flags env w).2.2.trace = pre ++ [Event.log e, Event.exit 1])
      ∧ ((main lib flags env w).1 = 0 →
          (∃ pre, (main lib flags env w).2.2.trace
            = pre ++ [Event.interrupt, Event.stop, Event.remove flags.addr, Event.exit 0])
          ∧ (main lib flags env w).2.2.fs flags.addr = Node.absent) := by
  unfold main at hopen ⊢
  rcases hN : New lib flags w with ⟨_ | li0, w1⟩
  · simp [hN] at hopen
  · have hc0 := New_closed lib flags w w1 li0 hN
    simp only [hN] at hopen ⊢
    cases hs : env.snapshotterErr with
    | some e =>
      simp only [hs, must, Option.some.injEq] at hopen ⊢
      subst hopen
      exact ⟨fun _ => ⟨trivial, hc0, _, e, rfl⟩, fun h => by simp at h⟩
    | none =>
      simp only [hs, must] at hopen ⊢
      cases hl : env.listenErr with
      | some e =>
        simp only [hl, Option.some.injEq] at hopen ⊢
        subst hopen
        exact ⟨fun _ => ⟨trivial, hc0, _, e, rfl⟩, fun h => by simp at h⟩
      | none =>
        simp only [hl] at hopen ⊢
        obtain ⟨hcl, hex⟩ := serveCalls_spec lib env.calls li0
          { fs := setNode w1.fs flags.addr Node.socket, fileSizeLimit := w1.fileSizeLimit,
            trace := w1.trace ++ [Event.newServer, Event.newSnapshotter flags.root]
              ++ [Event.register, Event.listen flags.addr] ++ [Event.notify, Event.serve],
            ext := w1.ext }
        generalize serveCalls lib env.calls li0 _ = R at hopen hcl hex ⊢
        obtain ⟨o, li1, w7⟩ := R
        cases o with
        | exited code =>
          simp only [Option.some.injEq] at hopen ⊢
          subst hopen
          obtain ⟨h1, pre, e, h2⟩ := hex code rfl
          exact ⟨fun _ => ⟨h1, hcl.trans hc0, pre, e, h2⟩, fun h => by omega⟩
        | returned r =>
          simp only [Option.some.injEq] at hopen ⊢
          exact ⟨fun h => absurd rfl h, fun _ => ⟨⟨_, rfl⟩, by simp [setNode]⟩⟩

/-- C9 amended, at a run in which `net.Listen` fails (exit through `must`) and
at a run that ends on the interrupt. -/
theorem main_exit_paths_witness :
    (main (sampleLib false) defaultFlags busyEnv (sampleWorld none none)).2.1 = some sampleSink
      ∧ (main (sampleLib false) defaultFlags busyEnv (sampleWorld none none)).1 = 1
      ∧ sampleSink.f.closed = false
      ∧ (main (sampleLib false) defaultFlags quietEnv (sampleWorld none none)).1 = 0
      ∧ (main (sampleLib false) defaultFlags quietEnv (sampleWorld none none)).2.2.fs
          defaultFlags.addr = Node.absent :=
  have hb := main_exit_paths (sampleLib false) defaultFlags busyEnv (sampleWorld none none)
    sampleSink (by decide)
  have hq := main_exit_paths (sampleLib false) defaultFlags quietEnv (sampleWorld none none)
    { sampleSink with f := { sampleSink.f with offset := 117 } } (by decide)
  ⟨by decide, (hb.1 (by decide)).1, (hb.1 (by decide)).2.1, by decide, (hq.2 (by decide)).2⟩

/-- Writing at the end of a file appends. -/
theorem writeAt_end (data b : List Nat) : writeAt data data.length b = data ++ b := by
  simp [writeAt]

/-- A call on which both writes succeed, on a sink positioned at the end of
the log, with a handler that leaves the log alone: the log is then the old
content followed by the request line and the response line. -/
theorem Intercept_appends_at_end {C M σ : Type} (lib : Lib M)
    (li : LoggingInterceptor) (ctx : C) (req : GoAny M) (info : UnaryServerInfo)
    (handler : UnaryHandler C M σ) (w : World σ) (old : List Nat)
    (hreq : (requestWrite lib li req info w).1 = none)
    (hresp : (responseWrite lib li ctx req info handler w).1 = none)
    (hold : w.fs li.f.name = Node.regular old)
    (hpos : writePos li.f old = old.length)
    (hquiet : (handlerCall lib li ctx req info handler w).2.fs li.f.name
      = (requestWrite lib li req info w).2.2.2.fs li.f.name) :
    ∃ reqText respText,
      marshal lib { kind := "request", method := info.FullMethod, msg := req }
          li.encoder.escapeHTML = Except.ok reqText
      ∧ marshal lib { kind := "response", method := info.FullMethod,
                      msg := (handlerCall lib li ctx req info handler w).1.1 }
          li.encoder.escapeHTML = Except.ok respText
      ∧ (li.Intercept lib ctx req info handler w).2.2.fs li.f.name
          = Node.regular (old ++ recordLine reqText ++ recordLine respText) := by
  obtain ⟨reqText, respText, d0, d1, hm1, hm2, _, _, hd0, hfs1, hd1, hfs2⟩ :=
    Intercept_writes_request_then_response lib li ctx req info handler w hreq hresp
  have e0 : d0 = old := by
    rw [hold] at hd0
    injection hd0 with h
    exact h.symm
  subst e0
  have e1 : d1 = d0 ++ recordLine reqText := by
    rw [hquiet, hfs1] at hd1
    simp only [setNode, if_true, hpos, writeAt_end] at hd1
    injection hd1 with h
    exact h.symm
  have hpos2 : writePos { li.f with offset := writePos li.f d0 + (recordLine reqText).length } d1
      = d1.length := by
    rw [e1, hpos]
    unfold writePos
    split
    · rfl
    · simp
  refine ⟨reqText, respText, hm1, hm2, ?_⟩
  rw [hfs2, hpos2, writeAt_end, e1]
  simp [setNode]

/-- C4 fails on the code, by the defect of C7 (`New` opens the log without
`O_APPEND`). A process that starts on a log of 173 bytes and intercepts one
`Stat` call: both writes succeed and the call returns, but the two records
are not appended. The log is as long as before; its first 117 bytes are now
the request line and the response line, written over the old entries; the old
content is no longer there. The run of `main` on that log leaves the same
file. -/
theorem Intercept_overwrites_reopened_log :
    (requestWrite (sampleLib false) sampleSink statReq statInfo
        (New (sampleLib false) defaultFlags restartWorld).2).1 = none
      ∧ (responseWrite (sampleLib false) sampleSink () statReq statInfo
          (sampleHandler (statResp, none))
          (New (sampleLib false) defaultFlags restartWorld).2).1 = none
      ∧ (sampleSink.Intercept (sampleLib false) () statReq statInfo
          (sampleHandler (statResp, none))
          (New (sampleLib false) defaultFlags restartWorld).2).1
          = Outcome.returned (statResp, none)
      ∧ (utf8 oldLog).length = 173
      ∧ (logData defaultFlags (sampleSink.Intercept (sampleLib false) () statReq statInfo
          (sampleHandler (statResp, none))
          (New (sampleLib false) defaultFlags restartWorld).2).2.2).length = 173
      ∧ (logData defaultFlags (sampleSink.Intercept (sampleLib false) () statReq statInfo
          (sampleHandler (statResp, none))
          (New (sampleLib false) defaultFlags restartWorld).2).2.2).take 117
          = utf8 statRequestLine ++ utf8 statResponseLine
      ∧ (logData defaultFlags (sampleSink.Intercept (sampleLib false) () statReq statInfo
          (sampleHandler (statResp, none))
          (New (sampleLib false) defaultFlags restartWorld).2).2.2).take 173
          ≠ utf8 oldLog
      ∧ logData defaultFlags (main (sampleLib false) defaultFlags quietEnv restartWorld).2.2
          = logData defaultFlags (sampleSink.Intercept (sampleLib false) () statReq statInfo
              (sampleHandler (statResp, none))
              (New (sampleLib false) defaultFlags restartWorld).2).2.2 := by
  decide

/-- C5 fails on the code, by the defect of C8 (`%q` is Go quoting, not JSON
quoting). For the response record of a call whose method name is U+0007,
`MarshalJSON` succeeds, but the value it writes for `method` is `"\a"`, which
is not a JSON string: the text is not a JSON object, the scanner stops at the
escape. What `%q` writes is the Go literal of the name: a quote and a
backslash get a backslash, the vertical tab is `\v`, U+007F is `\x7f`,
U+0085 is `\u0085`; for the name `Stat` the text is a JSON object. -/
theorem MarshalJSON_text_is_not_one_object :
    (responseMsg bellInfo statResp).MarshalJSON (sampleLib false)
        = (some bellResponseText, none)
      ∧ Quote (sampleLib false) bellInfo.FullMethod = "\"\\a\""
      ∧ Valid (utf8 bellResponseText) = false
      ∧ checkValid (utf8 bellResponseText) newScanner
          = some "invalid character 'a' in string escape code"
      ∧ Quote (sampleLib false) "a\"b\\c" = "\"a\\\"b\\\\c\""
      ∧ Quote (sampleLib false) "\x0b" = "\"\\v\""
      ∧ Quote (sampleLib false) "\x7f" = "\"\\x7f\""
      ∧ Quote (sampleLib false) "\u0085" = "\"\\u0085\""
      ∧ (responseMsg statInfo statResp).MarshalJSON (sampleLib false)
          = (some ("\x7b\"method\": \"Stat\", \"type\": \"response\", "
              ++ "\"message\": \x7b\"size\":42\x7d\x7d"), none)
      ∧ Valid (utf8 ("\x7b\"method\": \"Stat\", \"type\": \"response\", "
              ++ "\"message\": \x7b\"size\":42\x7d\x7d")) = true := by
  decide

end Snapshotter
